import Mathlib

/-!
A shallow embedding of `openfisca_survey_manager/surveys.py` and proofs about
its behaviour.

Python dictionaries are modelled as association lists with first-occurrence
lookup and in-place update (`dictGet` / `dictSet`).  The external HDF store
(`pandas.HDFStore`) is modelled as a mapping from table names to the stored
dataframe, and a dataframe is modelled by its list of column names (the only
part of a dataframe the code under verification inspects).  Python exceptions
are modelled by `Except PyErr`.
-/

namespace SurveyManager

/-- Lookup in a Python dict modelled as an association list (first match). -/
def dictGet {V : Type} : List (String × V) → String → Option V
  | [], _ => none
  | (a, b) :: tl, k => if a = k then some b else dictGet tl k

/-- Update/insert in a Python dict modelled as an association list: replace the
value at an existing key in place, otherwise append the new binding at the
end (Python dicts preserve insertion order). -/
def dictSet {V : Type} : List (String × V) → String → V → List (String × V)
  | [], k, v => [(k, v)]
  | (a, b) :: tl, k, v => if a = k then (a, v) :: tl else (a, b) :: dictSet tl k v

theorem dictGet_dictSet_self {V : Type} (d : List (String × V)) (k : String) (v : V) :
    dictGet (dictSet d k v) k = some v := by
  induction d with
  | nil => simp [dictGet, dictSet]
  | cons p tl ih =>
      obtain ⟨a, b⟩ := p
      by_cases h : a = k <;> simp [dictGet, dictSet, h, ih]

theorem dictGet_dictSet_ne {V : Type} (d : List (String × V)) (k k' : String) (v : V)
    (h : k ≠ k') : dictGet (dictSet d k v) k' = dictGet d k' := by
  induction d with
  | nil => simp [dictGet, dictSet, h]
  | cons p tl ih =>
      obtain ⟨a, b⟩ := p
      by_cases ha : a = k
      · subst ha; simp [dictGet, dictSet, h]
      · simp only [dictSet, if_neg ha]
        by_cases ha' : a = k' <;> simp [dictGet, ha', ih]

/-- Values stored in the free-form `informations` metadata bag: either a plain
string or a list of strings (the shape used by the `"{format}_files"` keys). -/
inductive PyVal where
  | str (s : String)
  | strList (l : List String)
deriving DecidableEq, Repr

/-- A dataframe, modelled by its list of column names. -/
abbrev Df := List String

/-- A per-table descriptor: a dict of string fields (e.g. `"Rdata_table"`). -/
abbrev Descriptor := List (String × String)

/-- The `tables` mapping: table name → descriptor. -/
abbrev Tables := List (String × Descriptor)

/-- The `informations` metadata bag. -/
abbrev Informations := List (String × PyVal)

/-- The `tables_index` cache: table name → list of column names. -/
abbrev TablesIndex := List (String × List String)

/-- The external HDF store: table name → stored dataframe. -/
abbrev Store := List (String × Df)

/-- Python exceptions raised by the code under verification. -/
inductive PyErr where
  | invalidArgument
  | typeError
  | notFound
  | missingVariables (missing : List String)
  | unsupportedFormat (ext : String)
deriving DecidableEq, Repr

/-- A `Survey` instance (surveys.py lines 54-81).  The per-instance attributes
are exactly those assigned on `self`: `name`, `label`, `hdf5_file_path`,
`survey_collection`, `tables` and `informations`.  `tables` is an `Option`
because `create_from_json` assigns `survey_json.get('tables')`, which is the
Python `None` when the key is absent.  Crucially, `tables_index` is NOT a
field: the source never assigns `self.tables_index`, so attribute lookup on
any instance resolves to the single class-level dictionary modelled by
`SurveyClassState`. -/
structure Survey where
  name : String
  label : Option String
  hdf5_file_path : Option String
  survey_collection : Option PyVal
  tables : Option Tables
  informations : Informations
deriving DecidableEq, Repr

/-- The mutable class-level state of the `Survey` class: the `tables_index`
dictionary declared at class level (surveys.py line 63) and shared by every
instance, because `__init__` never creates a per-instance `tables_index`. -/
structure SurveyClassState where
  tables_index : TablesIndex
deriving DecidableEq, Repr

/-- The `tables_index` dictionary observed through attribute lookup on an
instance: the instance dict never holds that attribute, so lookup falls
through to the class attribute, whatever the instance is. -/
def Survey.tablesIndexOf (_s : Survey) (cls : SurveyClassState) : TablesIndex :=
  cls.tables_index

/-- `Survey.__init__` (surveys.py lines 66-81): asserts `name is not None`
(modelled by `PyErr.invalidArgument`), assigns a fresh per-instance
`tables = dict()` and `informations = kwargs`, and assigns `label`,
`hdf5_file_path` and `survey_collection` (whether given or left as the
class-level `None` default, the observed attribute equals the argument).
`self.tables_index` is never assigned here. -/
def surveyInit (name : Option String) (label : Option String)
    (hdf5_file_path : Option String) (survey_collection : Option PyVal)
    (kwargs : Informations) : Except PyErr Survey :=
  match name with
  | none => .error .invalidArgument
  | some n =>
      .ok { name := n, label := label, hdf5_file_path := hdf5_file_path,
            survey_collection := survey_collection, tables := some [],
            informations := kwargs }

/-- The serialized record produced by `to_json` and consumed by
`create_from_json`: keys `hdf5_file_path`, `label`, `name`, `tables`,
`informations`.  A `none` field models an absent key or a `None` value
(Python's `dict.get` does not distinguish the two). -/
structure Record where
  hdf5_file_path : Option String
  label : Option String
  name : Option String
  tables : Option Tables
  informations : Option Informations
deriving DecidableEq, Repr

/-- `sorted(self.informations.iteritems())` (surveys.py line 229): Python's
stable sort of the key/value pairs; keys are unique in a dict, so sorting by
key alone is equivalent. -/
def sortByKey (info : Informations) : Informations :=
  List.insertionSort (fun p q => p.1 ≤ q.1) info

/-- `Survey.to_json` (surveys.py lines 222-230). -/
def Survey.to_json (s : Survey) : Record :=
  { hdf5_file_path := s.hdf5_file_path
    label := s.label
    name := some s.name
    tables := s.tables
    informations := some (sortByKey s.informations) }

/-- `Survey.create_from_json` (surveys.py lines 92-101):
`cls(name=get('name'), label=get('label'), hdf5_file_path=get('hdf5_file_path'),
**get('informations', dict()))` followed by `self.tables = get('tables')`.
Splatting the informations dict as keyword arguments means a key equal to one
of the explicitly passed parameter names raises `TypeError` (duplicate keyword
argument), and a key named `survey_collection` binds to that parameter of
`__init__` instead of landing in `kwargs`. -/
def create_from_json (r : Record) : Except PyErr Survey :=
  let info := r.informations.getD []
  if info.any (fun p => p.1 = "name" || p.1 = "label" || p.1 = "hdf5_file_path") then
    .error .typeError
  else
    match surveyInit r.name r.label r.hdf5_file_path (dictGet info "survey_collection")
        (info.filter (fun p => p.1 ≠ "survey_collection")) with
    | .error e => .error e
    | .ok s => .ok { s with tables := r.tables }

/-- The module-level `source_format_by_extension` dict (surveys.py lines
46-51). -/
def source_format_by_extension : List (String × String) :=
  [("sas7bdat", "sas"), ("dta", "stata"), ("Rdata", "Rdata"), ("spss", "sav")]

/-- Index of the last occurrence of a character in a character list. -/
def lastIndexOf (cs : List Char) (c : Char) : Option Nat :=
  match cs.reverse.findIdx? (fun x => x = c) with
  | none => none
  | some i => some (cs.length - 1 - i)

/-- The extension component returned by `os.path.splitext(p)` on a POSIX path
(including the leading dot): the suffix from the last `.` that lies after the
last `/`, provided some earlier character of the file name is not a dot
(leading dots mark hidden files, not extensions). -/
def splitextExt (p : String) : String :=
  let cs := p.data
  match lastIndexOf cs '.' with
  | none => ""
  | some d =>
      let s := match lastIndexOf cs '/' with
        | none => 0
        | some k => k + 1
      if s ≤ d && ((cs.drop s).take (d - s)).any (fun c => c != '.') then
        String.mk (cs.drop d)
      else ""

/-- The per-file step of `Survey.fill_hdf` (surveys.py lines 112 and 123):
`path_name, extension = os.path.splitext(data_file)` followed by
`source_format_by_extension[extension[1:]]`, whose `KeyError` on an unknown
extension is modelled by `PyErr.unsupportedFormat`.  Returns the source
format recorded on the per-file `Table`. -/
def sourceFormatOfFile (data_file : String) : Except PyErr String :=
  match dictGet source_format_by_extension ((splitextExt data_file).drop 1) with
  | some fmt => .ok fmt
  | none => .error (.unsupportedFormat ((splitextExt data_file).drop 1))

/-- The fixed format list used by `fill_hdf` when no `source_format` is given
(surveys.py line 106). -/
def defaultSourceFormats : List String := ["stata", "sas", "spss", "Rdata"]

/-- `survey.informations.get("{format}_files", [])` (surveys.py lines
110-111); a value of the wrong shape is treated as an empty file list. -/
def filesFor (info : Informations) (fmt : String) : List String :=
  match dictGet info (fmt ++ "_files") with
  | some (PyVal.strList l) => l
  | _ => []

/-- The list of data files processed by `fill_hdf`, in processing order. -/
def fillHdfFiles (info : Informations) (source_format : Option String) : List String :=
  let fmts := match source_format with
    | none => defaultSourceFormats
    | some f => [f]
  (fmts.map (fun fmt => filesFor info fmt)).flatten

/-- `Survey.fill_hdf` (surveys.py lines 103-124), observed through the source
format it records on each file's `Table`: for each declared data file, in
order, the format is resolved from the file extension (the `Table` is first
constructed with the loop's format and then overwritten from the extension
lookup, so the recorded format is the extension-based one); the first unknown
extension aborts the call.  The derivation of `hdf5_file_path` from the
external config provider and the `Table` construction itself have no
observable effect on any property verified here and are not modelled.
`fillFormats` is the file loop: resolve each file's format in order, aborting
at the first unknown extension. -/
def fillFormats : List String → Except PyErr (List (String × String))
  | [] => .ok []
  | f :: fs =>
      match sourceFormatOfFile f with
      | .error e => .error e
      | .ok fmt =>
          match fillFormats fs with
          | .error e => .error e
          | .ok rest => .ok ((f, fmt) :: rest)

def Survey.fill_hdf (s : Survey) (source_format : Option String) :
    Except PyErr (List (String × String)) :=
  fillFormats (fillHdfFiles s.informations source_format)

/-- `Survey.get_columns` (surveys.py lines 139-144): asserts the table name is
given and present in the store (both `assert` statements are modelled by
`PyErr.invalidArgument`), then returns `list(store[table].columns)`. -/
def get_columns (store : Store) (table : Option String) : Except PyErr (List String) :=
  match table with
  | none => .error .invalidArgument
  | some t =>
      match dictGet store t with
      | none => .error .invalidArgument
      | some df => .ok df

/-- The loop of `Survey.find_tables` (surveys.py lines 132-136), threading the
`tables_index` cache and also returning, as instrumentation for the caching
property, the list of tables actually read from the store (i.e. the calls to
`get_columns`). -/
def findTablesAux (store : Store) (v : String) :
    List String → TablesIndex → Except PyErr (List String × TablesIndex × List String)
  | [], idx => .ok ([], idx, [])
  | t :: ts, idx =>
      match dictGet idx t with
      | some cols =>
          match findTablesAux store v ts idx with
          | .error e => .error e
          | .ok (res, idx2, reads) =>
              .ok ((if cols.contains v then t :: res else res), idx2, reads)
      | none =>
          match get_columns store (some t) with
          | .error e => .error e
          | .ok cols =>
              match findTablesAux store v ts (dictSet idx t cols) with
              | .error e => .error e
              | .ok (res, idx2, reads) =>
                  .ok ((if cols.contains v then t :: res else res), idx2, t :: reads)

/-- `Survey.find_tables` (surveys.py lines 126-137): asserts `variable` is
given, defaults the candidate list to the keys of `self.tables` (iterating
the Python `None` raises `TypeError`), and runs the caching loop against the
class-level `tables_index` observed through `Survey.tablesIndexOf`.  The
extra third component of the result lists the store reads performed. -/
def Survey.find_tables (s : Survey) (store : Store) (cls : SurveyClassState)
    (variableArg : Option String) (tablesArg : Option (List String)) :
    Except PyErr (List String × SurveyClassState × List String) :=
  match variableArg with
  | none => .error .invalidArgument
  | some v =>
      let cands : Except PyErr (List String) :=
        match tablesArg with
        | some ts => .ok ts
        | none =>
            match s.tables with
            | some m => .ok (m.map Prod.fst)
            | none => .error .typeError
      match cands with
      | .error e => .error e
      | .ok ts =>
          match findTablesAux store v ts (s.tablesIndexOf cls) with
          | .error e => .error e
          | .ok (res, idx2, reads) => .ok (res, ⟨idx2⟩, reads)

/-- Python 2's `str.lower` on an ASCII column name, character by character
(modelled at the character-list level so that it evaluates in the kernel). -/
def pyLower (s : String) : String :=
  String.mk (s.data.map Char.toLower)

/-- The compiled regular expression `(?i)ident\d{2,4}$` used with `re.match`
(surveys.py line 41): the column name must consist, from its start, of
`ident` (case-insensitively) followed by two to four ASCII digits and then
the end of the string. -/
def identMatch (s : String) : Bool :=
  match s.data.map Char.toLower with
  | 'i' :: 'd' :: 'e' :: 'n' :: 't' :: rest =>
      decide (2 ≤ rest.length) && decide (rest.length ≤ 4) && rest.all Char.isDigit
  | _ => false

/-- The `lowercase` branch of `get_values` (surveys.py lines 192-194): the
rename dict maps every column name to its lowercase form. -/
def lowercaseCols (cols : Df) : Df :=
  cols.map (fun c => pyLower c)

/-- The `rename_ident` branch of `get_values` (surveys.py lines 196-201):
scan the columns in order for the first name matching `identMatch` and rename
it (that is, every column carrying that exact label, per pandas label-based
`rename`) to `"ident"`, then stop. -/
def renameIdentCols (cols : Df) : Df :=
  match cols.find? (fun c => identMatch c) with
  | none => cols
  | some m => cols.map (fun c => if c = m then "ident" else c)

/-- The column transformations applied by `get_values` before variable
selection, in source order: lowercasing, then ident renaming. -/
def transformCols (cols : Df) (lowercase rename_ident : Bool) : Df :=
  let cols := if lowercase then lowercaseCols cols else cols
  if rename_ident then renameIdentCols cols else cols

/-- The table-resolution step of `get_values` (surveys.py lines 186-190):
`df = store[table]` and, on `KeyError`, the fallback
`df = store[self.tables[table]["Rdata_table"]]`.  Every `KeyError` along the
fallback (table absent from `tables`, descriptor without `"Rdata_table"`,
alias absent from the store) is modelled by `PyErr.notFound`. -/
def resolveDf (store : Store) (tables : Tables) (table : String) : Except PyErr Df :=
  match dictGet store table with
  | some df => .ok df
  | none =>
      match dictGet tables table with
      | none => .error .notFound
      | some desc =>
          match dictGet desc "Rdata_table" with
          | none => .error .notFound
          | some aliasName =>
              match dictGet store aliasName with
              | some df => .ok df
              | none => .error .notFound

/-- The alias lookup `self.tables[table]["Rdata_table"]` as a partial
function, used to state properties of `resolveDf`. -/
def aliasOf (tables : Tables) (table : String) : Option String :=
  (dictGet tables table).bind (fun desc => dictGet desc "Rdata_table")

/-- `Survey.get_values` (surveys.py lines 167-211), with the dataframe
abstracted to its column list: resolve the table, apply the lowercase and
ident renames, and either return the whole (renamed) dataframe or select the
requested variables, raising the missing-variables exception (line 208,
modelled by `PyErr.missingVariables`) when `set(variables) - set(df.columns)`
is non-empty.  `list(set(variables).intersection(df.columns))` enumerates a
set, so the selected columns are modelled by a duplicate-free enumeration of
that intersection. -/
def get_values (store : Store) (tables : Tables) (variablesArg : Option (List String))
    (table : String) (lowercase : Bool) (rename_ident : Bool) : Except PyErr Df :=
  match resolveDf store tables table with
  | .error e => .error e
  | .ok df =>
      let cols := transformCols df lowercase rename_ident
      match variablesArg with
      | none => .ok cols
      | some vs =>
          let diff := (vs.filter (fun v => !cols.contains v)).dedup
          if diff.isEmpty then
            .ok ((vs.dedup).filter (fun v => cols.contains v))
          else
            .error (.missingVariables diff)

/-- The value written last for a key by a sequence of keyword assignments. -/
def lastAssign : List (String × String) → String → Option String
  | [], _ => none
  | p :: tl, k =>
      match lastAssign tl k with
      | some v => some v
      | none => if p.1 = k then some p.2 else none

/-- `Survey.insert_table` (surveys.py lines 213-220): create an empty
descriptor for `name` when absent, then assign each supplied field into that
descriptor in order.  Iterating over a `tables` that is the Python `None`
raises `TypeError`. -/
def Survey.insert_table (s : Survey) (name : String) (kwargs : List (String × String)) :
    Except PyErr Survey :=
  match s.tables with
  | none => .error .typeError
  | some m =>
      let m1 := if (dictGet m name).isSome then m else dictSet m name []
      let desc := (dictGet m1 name).getD []
      let desc2 := kwargs.foldl (fun d p => dictSet d p.1 p.2) desc
      .ok { s with tables := some (dictSet m1 name desc2) }

/-! ### Helper lemmas -/

theorem lastAssign_eq_none (fs : List (String × String)) (k : String)
    (h : lastAssign fs k = none) : ∀ q ∈ fs, q.1 ≠ k := by
  induction fs with
  | nil => intro q hq; cases hq
  | cons p tl ih =>
      intro q hq
      simp only [lastAssign] at h
      rcases hla : lastAssign tl k with _ | v
      · rw [hla] at h
        rcases List.mem_cons.mp hq with hq | hq
        · subst hq
          intro hk
          simp [hk] at h
        · exact ih (by rw [hla]) q hq
      · rw [hla] at h; cases h

theorem foldl_dictSet_not_assigned (fs : List (String × String)) (k : String)
    (h : ∀ q ∈ fs, q.1 ≠ k) (d : Descriptor) :
    dictGet (fs.foldl (fun d p => dictSet d p.1 p.2) d) k = dictGet d k := by
  induction fs generalizing d with
  | nil => rfl
  | cons p tl ih =>
      have hp : p.1 ≠ k := h p (by simp)
      have htl : ∀ q ∈ tl, q.1 ≠ k := fun q hq => h q (by simp [hq])
      simp only [List.foldl_cons]
      rw [ih htl, dictGet_dictSet_ne _ _ _ _ hp]

theorem foldl_dictSet_last (fs : List (String × String)) (k : String) (v : String)
    (h : lastAssign fs k = some v) (d : Descriptor) :
    dictGet (fs.foldl (fun d p => dictSet d p.1 p.2) d) k = some v := by
  induction fs generalizing d with
  | nil => cases h
  | cons p tl ih =>
      simp only [lastAssign] at h
      simp only [List.foldl_cons]
      rcases hla : lastAssign tl k with _ | v2
      · rw [hla] at h
        by_cases hp : p.1 = k
        · rw [if_pos hp] at h
          injection h with h
          rw [foldl_dictSet_not_assigned tl k (lastAssign_eq_none tl k hla), hp, h,
            dictGet_dictSet_self]
        · rw [if_neg hp] at h; cases h
      · rw [hla] at h
        injection h with h
        subst h
        exact ih hla _

theorem fillFormats_ok_mem (fs : List String) (pairs : List (String × String))
    (h : fillFormats fs = Except.ok pairs) :
    ∀ p ∈ pairs, sourceFormatOfFile p.1 = Except.ok p.2 := by
  induction fs generalizing pairs with
  | nil =>
      simp only [fillFormats] at h
      injection h with h
      subst h
      intro p hp; cases hp
  | cons f tl ih =>
      simp only [fillFormats] at h
      rcases hf : sourceFormatOfFile f with e | fmt
      · rw [hf] at h; cases h
      · rw [hf] at h
        rcases htl : fillFormats tl with e | rest
        · rw [htl] at h; cases h
        · rw [htl] at h
          injection h with h
          subst h
          intro p hp
          rcases List.mem_cons.mp hp with hp | hp
          · subst hp; exact hf
          · exact ih rest htl p hp

theorem fillFormats_mem_ok (fs : List String) (pairs : List (String × String))
    (h : fillFormats fs = Except.ok pairs) :
    ∀ f ∈ fs, ∃ fmt, sourceFormatOfFile f = Except.ok fmt := by
  induction fs generalizing pairs with
  | nil => intro f hf; cases hf
  | cons g tl ih =>
      simp only [fillFormats] at h
      rcases hg : sourceFormatOfFile g with e | fmt
      · rw [hg] at h; cases h
      · rw [hg] at h
        rcases htl : fillFormats tl with e | rest
        · rw [htl] at h; cases h
        · intro f hf
          rcases List.mem_cons.mp hf with hf | hf
          · subst hf; exact ⟨fmt, hg⟩
          · exact ih rest htl f hf

/-! ### Claim theorems -/

/-- A first `Survey` instance, as produced by the constructor. -/
def surveyA : Survey :=
  { name := "a", label := none, hdf5_file_path := none, survey_collection := none,
    tables := some [], informations := [] }

/-- A second, distinct `Survey` instance, as produced by the constructor. -/
def surveyB : Survey :=
  { name := "b", label := none, hdf5_file_path := none, survey_collection := none,
    tables := some [], informations := [] }

/-- A one-table store used to exercise the `tables_index` cache. -/
def demoStore : Store := [("t", ["x"])]

/-- C1: the claim that distinct `Survey` instances own independent
`tables_index` mappings fails on the code: `tables_index` is a class-level
dictionary that `__init__` never replaces, so `find_tables` on one instance
caching a column set also changes the `tables_index` observed through every
other instance.  Concretely: `surveyA` and `surveyB` are two distinct
freshly-constructed surveys, `surveyA.find_tables("x", ["t"])` caches the
columns of table `"t"`, and afterwards `surveyB`'s observed `tables_index`
is no longer empty. -/
theorem C1_tables_index_shared :
    surveyInit (some "a") none none none [] = Except.ok surveyA ∧
    surveyInit (some "b") none none none [] = Except.ok surveyB ∧
    surveyA ≠ surveyB ∧
    Survey.find_tables surveyA demoStore ⟨[]⟩ (some "x") (some ["t"]) =
      Except.ok (["t"], ⟨[("t", ["x"])]⟩, ["t"]) ∧
    Survey.tablesIndexOf surveyB ⟨[]⟩ = [] ∧
    Survey.tablesIndexOf surveyB ⟨[("t", ["x"])]⟩ ≠ [] :=
  ⟨rfl, rfl, by decide, rfl, rfl, by decide⟩

/-- A record carrying only a name: no `tables` and no `informations` key. -/
def recNameOnly : Record :=
  { hdf5_file_path := none, label := none, name := some "s",
    tables := none, informations := none }

/-- C7 counterexample: for a record carrying only a name (no `tables` key),
`create_from_json` sets `tables` to the Python `None`
(`survey_json.get('tables')`), not to the empty mapping, so the claim as
stated is false at this input. -/
theorem C7_counterexample :
    create_from_json recNameOnly =
      Except.ok
        { name := "s", label := none, hdf5_file_path := none,
          survey_collection := none, tables := none, informations := [] } ∧
    (none : Option Tables) ≠ some [] :=
  ⟨rfl, by decide⟩

/-- C7 amended: for every record containing a name (whose informations keys do
not collide with the constructor's named parameters), `create_from_json`
succeeds; its `informations` is the empty mapping when the record has no
`informations` key, and its `tables` is the Python `None` — not the empty
mapping — when the record has no `tables` key (in general `tables` is exactly
the record's `tables` entry). -/
theorem C7_amended (r : Record) (n : String) (hn : r.name = some n)
    (hkeys : ∀ p ∈ r.informations.getD ([] : Informations),
      p.1 ≠ "name" ∧ p.1 ≠ "label" ∧ p.1 ≠ "hdf5_file_path") :
    ∃ s2, create_from_json r = Except.ok s2 ∧
      (r.informations = none → s2.informations = []) ∧
      s2.tables = r.tables ∧
      (r.tables = none → s2.tables = none) := by
  have hany : (r.informations.getD []).any
      (fun p => p.1 = "name" || p.1 = "label" || p.1 = "hdf5_file_path") = false := by
    simp only [List.any_eq_false]
    intro p hp
    obtain ⟨h1, h2, h3⟩ := hkeys p hp
    simp [h1, h2, h3]
  refine ⟨{ name := n, label := r.label, hdf5_file_path := r.hdf5_file_path,
            survey_collection := dictGet (r.informations.getD []) "survey_collection",
            tables := r.tables,
            informations := (r.informations.getD []).filter
              (fun p => p.1 ≠ "survey_collection") }, ?_, ?_, rfl, fun h => h⟩
  · simp only [create_from_json, hany, Bool.false_eq_true, if_false, hn, surveyInit]
  · intro h
    simp [h]

/-- C7 witness: the amended claim instantiated at the concrete record
`{name: "s"}` with neither a `tables` nor an `informations` key. -/
theorem C7_amended_witness :
    recNameOnly.name = some "s" ∧
    ∃ s2, create_from_json recNameOnly = Except.ok s2 ∧
      (recNameOnly.informations = none → s2.informations = []) ∧
      s2.tables = recNameOnly.tables ∧
      (recNameOnly.tables = none → s2.tables = none) :=
  ⟨rfl, C7_amended recNameOnly "s" rfl (by intro p hp; cases hp)⟩

/-- C8 counterexample: constructing a `Survey` with the empty string as its
name succeeds (the source only asserts `name is not None`), so the claim that
construction fails for an empty name is false at this input. -/
theorem C8_counterexample :
    surveyInit (some "") none none none [] =
      Except.ok
        { name := "", label := none, hdf5_file_path := none,
          survey_collection := none, tables := some [], informations := [] } ∧
    surveyInit (some "") none none none [] ≠ Except.error PyErr.invalidArgument :=
  ⟨rfl, fun h => nomatch h⟩

/-- C8 amended: construction fails (with the assertion modelled as
`InvalidArgument`) exactly when the name is absent; for every present name —
including the empty string — the constructed `Survey` has that name, an empty
`tables` mapping, and `informations` containing exactly the extra keyword
arguments supplied. -/
theorem C8_amended :
    (∀ label path sc kwargs,
      surveyInit none label path sc kwargs = Except.error PyErr.invalidArgument) ∧
    (∀ n label path sc kwargs,
      surveyInit (some n) label path sc kwargs =
        Except.ok
          { name := n, label := label, hdf5_file_path := path,
            survey_collection := sc, tables := some [], informations := kwargs }) :=
  ⟨fun _ _ _ _ => rfl, fun _ _ _ _ _ => rfl⟩

/-- C9: during `fill_hdf`, the source format recorded for each processed file
is exactly the one the fixed extension lookup `sas7bdat→sas`, `dta→stata`,
`Rdata→Rdata`, `spss→sav` assigns to the file's extension; an extension
outside the lookup (e.g. `csv`) has no entry, the per-file step fails with
the unsupported-format error, and the whole call cannot succeed once such a
file is among the declared source files. -/
theorem C9_source_format_lookup :
    dictGet source_format_by_extension "sas7bdat" = some "sas" ∧
    dictGet source_format_by_extension "dta" = some "stata" ∧
    dictGet source_format_by_extension "Rdata" = some "Rdata" ∧
    dictGet source_format_by_extension "spss" = some "sav" ∧
    dictGet source_format_by_extension "csv" = none ∧
    (∀ (s : Survey) (sf : Option String) (pairs : List (String × String)),
      Survey.fill_hdf s sf = Except.ok pairs →
      ∀ p ∈ pairs,
        dictGet source_format_by_extension ((splitextExt p.1).drop 1) = some p.2) ∧
    (∀ (s : Survey) (sf : Option String) (f : String),
      f ∈ fillHdfFiles s.informations sf →
      dictGet source_format_by_extension ((splitextExt f).drop 1) = none →
      ∀ pairs, Survey.fill_hdf s sf ≠ Except.ok pairs) := by
  refine ⟨rfl, rfl, rfl, rfl, rfl, ?_, ?_⟩
  · intro s sf pairs h p hp
    have := fillFormats_ok_mem _ pairs h p hp
    unfold sourceFormatOfFile at this
    rcases hd : dictGet source_format_by_extension ((splitextExt p.1).drop 1) with _ | fmt
    · rw [hd] at this; cases this
    · rw [hd] at this
      injection this with this
      rw [this]
  · intro s sf f hf hd pairs h
    obtain ⟨fmt, hfmt⟩ := fillFormats_mem_ok _ pairs h f hf
    unfold sourceFormatOfFile at hfmt
    rw [hd] at hfmt
    cases hfmt

/-- A survey declaring a single Stata source file. -/
def surveyStata : Survey :=
  { name := "s", label := none, hdf5_file_path := none,
    survey_collection := none, tables := some [],
    informations := [("stata_files", PyVal.strList ["a.dta"])] }

/-- C9 witness: the lookup part instantiated on a survey declaring one Stata
file `a.dta`, whose recorded format is `stata`. -/
theorem C9_witness :
    Survey.fill_hdf surveyStata none = Except.ok [("a.dta", "stata")] ∧
    dictGet source_format_by_extension ((splitextExt "a.dta").drop 1) = some "stata" :=
  ⟨rfl,
    C9_source_format_lookup.2.2.2.2.2.1 surveyStata
      none [("a.dta", "stata")] rfl ("a.dta", "stata") (by simp)⟩

/-- C10: `insert_table` only changes the descriptor stored under the given
name: every other key of `tables` keeps its previous descriptor; within the
descriptor for that name, every field key not assigned by the supplied fields
keeps its previous value, and each assigned field key ends with the last
value written for it. -/
theorem C10_insert_table_frame (s : Survey) (m : Tables) (hm : s.tables = some m)
    (n : String) (fs : List (String × String)) :
    ∃ s2 m2, s.insert_table n fs = Except.ok s2 ∧ s2.tables = some m2 ∧
      (∀ k, k ≠ n → dictGet m2 k = dictGet m k) ∧
      (∀ key, (∀ q ∈ fs, q.1 ≠ key) →
        dictGet ((dictGet m2 n).getD []) key = dictGet ((dictGet m n).getD []) key) ∧
      (∀ key v, lastAssign fs key = some v →
        dictGet ((dictGet m2 n).getD []) key = some v) := by
  unfold Survey.insert_table
  rw [hm]
  set m1 := if (dictGet m n).isSome then m else dictSet m n [] with hm1
  have hm1n : (dictGet m1 n).getD [] = (dictGet m n).getD [] := by
    rcases hdn : dictGet m n with _ | d
    · rw [hm1]
      simp [hdn, dictGet_dictSet_self]
    · rw [hm1]
      simp [hdn]
  have hm1k : ∀ k, k ≠ n → dictGet m1 k = dictGet m k := by
    intro k hk
    rw [hm1]
    rcases hdn : dictGet m n with _ | d
    · simp only [hdn, Option.isSome_none, Bool.false_eq_true, if_false]
      exact dictGet_dictSet_ne _ _ _ _ (fun h => hk h.symm)
    · simp [hdn]
  refine ⟨_, _, rfl, rfl, ?_, ?_, ?_⟩
  · intro k hk
    rw [dictGet_dictSet_ne _ _ _ _ (fun h => hk h.symm)]
    exact hm1k k hk
  · intro key hkey
    rw [dictGet_dictSet_self]
    simp only [Option.getD_some]
    rw [foldl_dictSet_not_assigned fs key hkey, hm1n]
  · intro key v hkv
    rw [dictGet_dictSet_self]
    simp only [Option.getD_some]
    exact foldl_dictSet_last fs key v hkv _

/-- A two-table `tables` mapping. -/
def demoTables : Tables := [("t", [("a", "1"), ("b", "2")]), ("u", [("x", "9")])]

/-- A survey owning `demoTables`. -/
def surveyTwoTables : Survey :=
  { name := "w", label := none, hdf5_file_path := none,
    survey_collection := none, tables := some demoTables, informations := [] }

/-- Fields inserted into table `t`: `a` written twice, `c` fresh. -/
def demoFields : List (String × String) := [("a", "3"), ("a", "5"), ("c", "4")]

/-- C10 witness: the frame property instantiated on a survey with two tables,
updating fields of table `t` (`a` twice — last write wins — and a fresh `c`)
and leaving table `u` and the untouched field `b` unchanged. -/
theorem C10_insert_table_witness :
    surveyTwoTables.tables = some demoTables ∧
    ∃ s2 m2,
      Survey.insert_table surveyTwoTables "t" demoFields = Except.ok s2 ∧
      s2.tables = some m2 ∧
      (∀ k, k ≠ "t" → dictGet m2 k = dictGet demoTables k) ∧
      (∀ key, (∀ q ∈ demoFields, Prod.fst q ≠ key) →
        dictGet ((dictGet m2 "t").getD []) key =
          dictGet ((dictGet demoTables "t").getD []) key) ∧
      (∀ key v, lastAssign demoFields key = some v →
        dictGet ((dictGet m2 "t").getD []) key = some v) :=
  ⟨rfl, C10_insert_table_frame surveyTwoTables demoTables rfl "t" demoFields⟩

/-- C4: `get_values` resolves the physical table by first trying the given
name directly as a store key; on failure it falls back to the
`tables[table]["Rdata_table"]` alias; when neither resolution succeeds the
call fails with the `KeyError` modelled as `NotFound`. -/
theorem C4_table_resolution (store : Store) (tables : Tables) (table : String) :
    (∀ df, dictGet store table = some df →
      resolveDf store tables table = Except.ok df) ∧
    (∀ a df, dictGet store table = none → aliasOf tables table = some a →
      dictGet store a = some df → resolveDf store tables table = Except.ok df) ∧
    ((dictGet store table = none ∧
        ∀ a, aliasOf tables table = some a → dictGet store a = none) →
      resolveDf store tables table = Except.error PyErr.notFound ∧
      ∀ variablesArg lowercase rename_ident,
        get_values store tables variablesArg table lowercase rename_ident =
          Except.error PyErr.notFound) := by
  refine ⟨?_, ?_, ?_⟩
  · intro df h
    simp [resolveDf, h]
  · intro a df h ha hstore
    unfold aliasOf at ha
    rcases ht : dictGet tables table with _ | desc
    · rw [ht] at ha; cases ha
    · rw [ht, Option.some_bind] at ha
      simp [resolveDf, h, ht, ha, hstore]
  · rintro ⟨h, hal⟩
    have hres : resolveDf store tables table = Except.error PyErr.notFound := by
      rcases ht : dictGet tables table with _ | desc
      · simp [resolveDf, h, ht]
      · rcases hr : dictGet desc "Rdata_table" with _ | a
        · simp [resolveDf, h, ht, hr]
        · have haof : aliasOf tables table = some a := by
            unfold aliasOf
            rw [ht, Option.some_bind, hr]
          simp [resolveDf, h, ht, hr, hal a haof]
    refine ⟨hres, fun variablesArg lowercase rename_ident => ?_⟩
    unfold get_values
    rw [hres]

/-- A store holding a direct table `t` and a physical table `pt`. -/
def store4 : Store := [("t", ["a"]), ("pt", ["b"])]

/-- A `tables` mapping aliasing logical table `r` to physical table `pt`. -/
def tables4 : Tables := [("r", [("Rdata_table", "pt")])]

/-- C4 witness: direct resolution of `t`, alias resolution of `r` through
`Rdata_table`, and the `NotFound` failure for the unresolvable `z`. -/
theorem C4_witness :
    resolveDf store4 tables4 "t" = Except.ok ["a"] ∧
    resolveDf store4 tables4 "r" = Except.ok ["b"] ∧
    get_values store4 tables4 none "z" true true = Except.error PyErr.notFound :=
  ⟨(C4_table_resolution store4 tables4 "t").1 ["a"] rfl,
    (C4_table_resolution store4 tables4 "r").2.1 "pt" ["b"] rfl rfl rfl,
    ((C4_table_resolution store4 tables4 "z").2.2
      ⟨rfl, fun _ ha => nomatch ha⟩).2 none true true⟩

/-- C3: for a `get_values` call with a variable list on a resolvable table,
either some requested variable is absent from the (renamed) columns and the
call fails with the missing-variables exception carrying exactly the set
difference `variables − presentColumns`, or all are present and the returned
dataset's columns are exactly the intersection of `variables` with the
present columns (as a set: membership characterises both results). -/
theorem C3_get_values_selection (store : Store) (tables : Tables) (table : String)
    (vs : List String) (lowercase rename_ident : Bool) (df : Df)
    (h : resolveDf store tables table = Except.ok df) :
    ((∃ v ∈ vs, v ∉ transformCols df lowercase rename_ident) →
      ∃ ms, get_values store tables (some vs) table lowercase rename_ident =
          Except.error (PyErr.missingVariables ms) ∧
        ∀ x, x ∈ ms ↔ x ∈ vs ∧ x ∉ transformCols df lowercase rename_ident) ∧
    ((∀ v ∈ vs, v ∈ transformCols df lowercase rename_ident) →
      ∃ res, get_values store tables (some vs) table lowercase rename_ident =
          Except.ok res ∧
        ∀ x, x ∈ res ↔ x ∈ vs ∧ x ∈ transformCols df lowercase rename_ident) := by
  have hgv : get_values store tables (some vs) table lowercase rename_ident =
      (if ((vs.filter
            (fun v => !(transformCols df lowercase rename_ident).contains v)).dedup).isEmpty
        then Except.ok (vs.dedup.filter
          (fun v => (transformCols df lowercase rename_ident).contains v))
        else Except.error (PyErr.missingVariables
          ((vs.filter
            (fun v => !(transformCols df lowercase rename_ident).contains v)).dedup))) := by
    simp only [get_values, h]
  have hdmem : ∀ x, x ∈ (vs.filter
      (fun v => !(transformCols df lowercase rename_ident).contains v)).dedup ↔
      x ∈ vs ∧ x ∉ transformCols df lowercase rename_ident := by
    intro x
    simp [List.mem_filter]
  constructor
  · rintro ⟨v, hv, hvn⟩
    have hne : (vs.filter
        (fun v => !(transformCols df lowercase rename_ident).contains v)).dedup ≠ [] :=
      List.ne_nil_of_mem ((hdmem v).mpr ⟨hv, hvn⟩)
    rw [if_neg (fun hc => hne (List.isEmpty_iff.mp hc))] at hgv
    exact ⟨_, hgv, hdmem⟩
  · intro hall
    have hnil : (vs.filter
        (fun v => !(transformCols df lowercase rename_ident).contains v)).dedup = [] := by
      rw [List.dedup_eq_nil, List.filter_eq_nil_iff]
      intro a ha
      simp [hall a ha]
    rw [if_pos (List.isEmpty_iff.mpr hnil)] at hgv
    refine ⟨_, hgv, fun x => ?_⟩
    simp [List.mem_filter]

/-- A store for the selection claim: table `t` has columns `a` and `c`. -/
def store3 : Store := [("t", ["a", "c"])]

/-- C3 witness: requesting `a` and `b` from a table with columns `a` and `c`
fails with the missing-variables error carrying exactly `b`. -/
theorem C3_witness :
    resolveDf store3 [] "t" = Except.ok ["a", "c"] ∧
    (∃ v ∈ ["a", "b"], v ∉ transformCols ["a", "c"] false false) ∧
    ∃ ms, get_values store3 [] (some ["a", "b"]) "t" false false =
        Except.error (PyErr.missingVariables ms) ∧
      ∀ x, x ∈ ms ↔ x ∈ ["a", "b"] ∧ x ∉ transformCols ["a", "c"] false false :=
  ⟨rfl, by decide,
    (C3_get_values_selection store3 [] "t" ["a", "b"] false false ["a", "c"] rfl).1
      (by decide)⟩

theorem map_eq_self_of_mem {l : List String} {f : String → String}
    (h : ∀ c ∈ l, f c = c) : l.map f = l := by
  induction l with
  | nil => rfl
  | cons c tl ih =>
      rw [List.map_cons, h c (by simp), ih (fun c hc => h c (by simp [hc]))]

theorem renameIdentCols_first (pre : List String) (m : String) (post : List String)
    (hpre : ∀ c ∈ pre, identMatch c = false) (hm : identMatch m = true)
    (hpost : m ∉ post) :
    renameIdentCols (pre ++ m :: post) = pre ++ "ident" :: post := by
  have hfind : (pre ++ m :: post).find? (fun c => identMatch c) = some m := by
    induction pre with
    | nil => exact List.find?_cons_of_pos _ hm
    | cons c tl ih =>
        rw [List.cons_append,
          List.find?_cons_of_neg _ (by simp [hpre c (by simp)])]
        exact ih (fun d hd => hpre d (by simp [hd]))
  unfold renameIdentCols
  rw [hfind]
  simp only []
  rw [List.map_append, List.map_cons, if_pos rfl]
  congr 1
  · refine map_eq_self_of_mem (fun c hc => ?_)
    rw [if_neg]
    intro he
    have hcf := hpre c hc
    rw [he, hm] at hcf
    cases hcf
  · congr 1
    refine map_eq_self_of_mem (fun c hc => ?_)
    rw [if_neg]
    intro he
    exact hpost (he ▸ hc)

/-- C5: on a resolvable table, `get_values` with `lowercase` renames every
column of the returned dataset to its lowercase form; with `rename_ident`,
exactly the first column (in current column order) matching the
case-insensitive `ident`-plus-2-to-4-digits pattern is renamed to `ident`,
and no other column — matching or not — is renamed in that call. -/
theorem C5_get_values_renames (store : Store) (tables : Tables) (table : String)
    (df : Df) (h : resolveDf store tables table = Except.ok df) :
    get_values store tables none table true false = Except.ok (df.map pyLower) ∧
    (∀ pre m post, df = pre ++ m :: post →
      (∀ c ∈ pre, identMatch c = false) → identMatch m = true → m ∉ post →
      get_values store tables none table false true =
        Except.ok (pre ++ "ident" :: post)) := by
  constructor
  · simp [get_values, h, transformCols, lowercaseCols]
  · intro pre m post hdf hpre hm hpost
    subst hdf
    simp only [get_values, h, transformCols, Bool.false_eq_true, if_false, if_true]
    rw [renameIdentCols_first pre m post hpre hm hpost]

/-- A store whose table `menage` has an upper-case ident column, a plain
column, and a second ident-pattern column. -/
def store5 : Store := [("menage", ["IDENT08", "Zone", "ident09"])]

/-- C5 witness: lowercasing maps every column to lowercase, and ident
renaming renames only the first matching column `IDENT08`, leaving the
second matching column `ident09` untouched. -/
theorem C5_witness :
    resolveDf store5 [] "menage" = Except.ok ["IDENT08", "Zone", "ident09"] ∧
    get_values store5 [] none "menage" true false =
      Except.ok (["IDENT08", "Zone", "ident09"].map pyLower) ∧
    ["IDENT08", "Zone", "ident09"].map pyLower = ["ident08", "zone", "ident09"] ∧
    get_values store5 [] none "menage" false true =
      Except.ok (["ident"] ++ ["Zone", "ident09"]) :=
  ⟨rfl,
    (C5_get_values_renames store5 [] "menage" ["IDENT08", "Zone", "ident09"] rfl).1,
    by decide,
    (C5_get_values_renames store5 [] "menage" ["IDENT08", "Zone", "ident09"] rfl).2
      [] "IDENT08" ["Zone", "ident09"] rfl (by decide) (by decide) (by decide)⟩

/-- C6: serializing a well-formed `Survey` with `to_json` and rebuilding it
with `create_from_json` yields a survey with identical `name`, `label`,
`hdf5_file_path` and `tables`, and with `informations` equal as a set of
key/value pairs (well-formed: the free-form metadata keys do not collide
with the constructor's named parameters, which the keyword-splatting of
`create_from_json` would capture or reject). -/
theorem C6_roundtrip (s : Survey)
    (hkeys : ∀ p ∈ s.informations, p.1 ≠ "name" ∧ p.1 ≠ "label" ∧
      p.1 ≠ "hdf5_file_path" ∧ p.1 ≠ "survey_collection") :
    ∃ s2, create_from_json (Survey.to_json s) = Except.ok s2 ∧
      s2.name = s.name ∧ s2.label = s.label ∧
      s2.hdf5_file_path = s.hdf5_file_path ∧ s2.tables = s.tables ∧
      ∀ p, p ∈ s2.informations ↔ p ∈ s.informations := by
  have hperm : ∀ p : String × PyVal, p ∈ sortByKey s.informations ↔ p ∈ s.informations :=
    fun p => (List.perm_insertionSort _ s.informations).mem_iff
  have hkeys2 : ∀ p ∈ sortByKey s.informations, p.1 ≠ "name" ∧ p.1 ≠ "label" ∧
      p.1 ≠ "hdf5_file_path" ∧ p.1 ≠ "survey_collection" :=
    fun p hp => hkeys p ((hperm p).mp hp)
  have hany : (sortByKey s.informations).any
      (fun p => p.1 = "name" || p.1 = "label" || p.1 = "hdf5_file_path") = false := by
    simp only [List.any_eq_false]
    intro p hp
    obtain ⟨h1, h2, h3, _⟩ := hkeys2 p hp
    simp [h1, h2, h3]
  refine ⟨{ name := s.name, label := s.label, hdf5_file_path := s.hdf5_file_path,
            survey_collection := dictGet (sortByKey s.informations) "survey_collection",
            tables := s.tables,
            informations := (sortByKey s.informations).filter
              (fun p => p.1 ≠ "survey_collection") }, ?_, rfl, rfl, rfl, rfl, ?_⟩
  · simp only [create_from_json, Survey.to_json, Option.getD_some, hany,
      Bool.false_eq_true, if_false, surveyInit]
  · intro p
    rw [List.mem_filter]
    constructor
    · rintro ⟨hp, _⟩
      exact (hperm p).mp hp
    · intro hp
      refine ⟨(hperm p).mpr hp, ?_⟩
      simp [(hkeys p hp).2.2.2]

/-- A survey with a label, a store path, a table descriptor and two metadata
entries (deliberately out of key order). -/
def survey6 : Survey :=
  { name := "enq", label := some "enquete", hdf5_file_path := some "/tmp/enq.h5",
    survey_collection := none,
    tables := some [("t", [("Rdata_table", "pt")])],
    informations := [("zzz", PyVal.str "v"), ("aaa", PyVal.strList ["f1", "f2"])] }

/-- C6 witness: the round-trip property instantiated on `survey6`. -/
theorem C6_roundtrip_witness :
    (∀ p ∈ survey6.informations, p.1 ≠ "name" ∧ p.1 ≠ "label" ∧
      p.1 ≠ "hdf5_file_path" ∧ p.1 ≠ "survey_collection") ∧
    ∃ s2, create_from_json (Survey.to_json survey6) = Except.ok s2 ∧
      s2.name = survey6.name ∧ s2.label = survey6.label ∧
      s2.hdf5_file_path = survey6.hdf5_file_path ∧ s2.tables = survey6.tables ∧
      ∀ p, p ∈ s2.informations ↔ p ∈ survey6.informations :=
  ⟨by decide, C6_roundtrip survey6 (by decide)⟩

/-- The column set of a table as stored, used to state `find_tables`
properties. -/
def storeColsOf (store : Store) (t : String) : List String :=
  (dictGet store t).getD []

theorem findTablesAux_spec (store : Store) (v : String) :
    ∀ (ts : List String) (idx : TablesIndex),
      (∀ t cols, dictGet idx t = some cols → dictGet store t = some cols) →
      (∀ t ∈ ts, (dictGet store t).isSome) →
      ∃ idx2 reads,
        findTablesAux store v ts idx =
          Except.ok (ts.filter (fun t => (storeColsOf store t).contains v), idx2, reads) ∧
        (∀ t cols, dictGet idx2 t = some cols → dictGet store t = some cols) ∧
        (∀ t, (dictGet idx t).isSome → dictGet idx2 t = dictGet idx t) ∧
        (∀ t ∈ ts, (dictGet idx2 t).isSome) ∧
        reads.Nodup ∧
        (∀ t ∈ reads, dictGet idx t = none) := by
  intro ts
  induction ts with
  | nil =>
      intro idx hcons hres
      exact ⟨idx, [], rfl, hcons, fun t _ => rfl,
        fun t ht => absurd ht (by simp), List.nodup_nil,
        fun t ht => absurd ht (by simp)⟩
  | cons t ts ih =>
      intro idx hcons hres
      rcases hit : dictGet idx t with _ | cols
      · have hsome : (dictGet store t).isSome := hres t (by simp)
        rcases hst : dictGet store t with _ | df
        · rw [hst] at hsome; cases hsome
        · have hcons1 : ∀ u cols, dictGet (dictSet idx t df) u = some cols →
              dictGet store u = some cols := by
            intro u cols hu
            by_cases hut : t = u
            · subst hut
              rw [dictGet_dictSet_self] at hu
              injection hu with hu
              rw [hst, hu]
            · rw [dictGet_dictSet_ne _ _ _ _ hut] at hu
              exact hcons u cols hu
          obtain ⟨idx2, reads, heq, hcons2, hpres, hsome2, hnd, hrn⟩ :=
            ih (dictSet idx t df) hcons1 (fun u hu => hres u (by simp [hu]))
          have hidx1t : dictGet (dictSet idx t df) t = some df := dictGet_dictSet_self _ _ _
          refine ⟨idx2, t :: reads, ?_, hcons2, ?_, ?_, ?_, ?_⟩
          · simp only [findTablesAux, hit, get_columns, hst, heq]
            rw [List.filter_cons]
            have hsc : storeColsOf store t = df := by simp [storeColsOf, hst]
            rw [hsc]
          · intro u hu
            have hut : t ≠ u := by
              intro he
              rw [he] at hit
              rw [hit] at hu
              cases hu
            have h1 : dictGet (dictSet idx t df) u = dictGet idx u :=
              dictGet_dictSet_ne _ _ _ _ hut
            exact (hpres u (by rw [h1]; exact hu)).trans h1
          · intro u hu
            rcases List.mem_cons.mp hu with hu | hu
            · subst hu
              rw [hpres u (by rw [hidx1t]; rfl), hidx1t]
              rfl
            · exact hsome2 u hu
          · refine List.nodup_cons.mpr ⟨?_, hnd⟩
            intro htm
            have := hrn t htm
            rw [hidx1t] at this
            cases this
          · intro u hu
            rcases List.mem_cons.mp hu with hu | hu
            · subst hu; exact hit
            · have h1 := hrn u hu
              have hut : t ≠ u := by
                intro he
                rw [← he, hidx1t] at h1
                cases h1
              rw [← dictGet_dictSet_ne idx t u df hut]
              exact h1
      · have hst : dictGet store t = some cols := hcons t cols hit
        obtain ⟨idx2, reads, heq, hcons2, hpres, hsome2, hnd, hrn⟩ :=
          ih idx hcons (fun u hu => hres u (by simp [hu]))
        refine ⟨idx2, reads, ?_, hcons2, hpres, ?_, hnd, hrn⟩
        · simp only [findTablesAux, hit, heq]
          rw [List.filter_cons]
          have hsc : storeColsOf store t = cols := by simp [storeColsOf, hst]
          rw [hsc]
        · intro u hu
          rcases List.mem_cons.mp hu with hu | hu
          · subst hu
            rw [hpres u (by rw [hit]; rfl), hit]
            rfl
          · exact hsome2 u hu

theorem findTablesAux_cached (store : Store) (v : String) :
    ∀ (ts : List String) (idx : TablesIndex),
      (∀ t cols, dictGet idx t = some cols → dictGet store t = some cols) →
      (∀ t ∈ ts, (dictGet idx t).isSome) →
      findTablesAux store v ts idx =
        Except.ok (ts.filter (fun t => (storeColsOf store t).contains v), idx, []) := by
  intro ts
  induction ts with
  | nil => intro idx _ _; rfl
  | cons t ts ih =>
      intro idx hcons hsome
      have h1 : (dictGet idx t).isSome := hsome t (by simp)
      rcases hit : dictGet idx t with _ | cols
      · rw [hit] at h1; cases h1
      · have hst : dictGet store t = some cols := hcons t cols hit
        have hih := ih idx hcons (fun u hu => hsome u (by simp [hu]))
        simp only [findTablesAux, hit, hih]
        rw [List.filter_cons]
        have hsc : storeColsOf store t = cols := by simp [storeColsOf, hst]
        rw [hsc]

/-- C2: for a non-`None` variable and a candidate table list whose tables are
all present in the store (and a `tables_index` cache consistent with the
store), `find_tables` returns exactly those candidate tables whose stored
column set contains the variable, in the iteration order of the candidate
list; the store reads it performs are pairwise distinct and touch only
tables not yet cached, and a second call with the same candidate list
performs no store read at all. -/
theorem C2_find_tables_cache (s : Survey) (store : Store) (v : String)
    (ts : List String) (idx : TablesIndex)
    (hcons : ∀ t cols, dictGet idx t = some cols → dictGet store t = some cols)
    (hres : ∀ t ∈ ts, (dictGet store t).isSome) :
    ∃ idx2 reads,
      Survey.find_tables s store ⟨idx⟩ (some v) (some ts) =
        Except.ok (ts.filter (fun t => (storeColsOf store t).contains v),
          ⟨idx2⟩, reads) ∧
      reads.Nodup ∧
      (∀ t ∈ reads, dictGet idx t = none) ∧
      Survey.find_tables s store ⟨idx2⟩ (some v) (some ts) =
        Except.ok (ts.filter (fun t => (storeColsOf store t).contains v),
          ⟨idx2⟩, []) := by
  obtain ⟨idx2, reads, heq, hcons2, _, hsome2, hnd, hrn⟩ :=
    findTablesAux_spec store v ts idx hcons hres
  refine ⟨idx2, reads, ?_, hnd, hrn, ?_⟩
  · simp only [Survey.find_tables, Survey.tablesIndexOf, heq]
  · simp only [Survey.find_tables, Survey.tablesIndexOf,
      findTablesAux_cached store v ts idx2 hcons2 hsome2]

/-- A two-table store for the caching claim. -/
def store2 : Store := [("t1", ["x"]), ("t2", ["y"])]

/-- C2 witness: `find_tables` over `["t1", "t2"]` starting from an empty
cache returns `["t1"]` for variable `x`, reads each table at most once, and
reads nothing on the second call. -/
theorem C2_find_tables_witness :
    (∀ t cols, dictGet ([] : TablesIndex) t = some cols →
      dictGet store2 t = some cols) ∧
    (∀ t ∈ ["t1", "t2"], (dictGet store2 t).isSome) ∧
    ∃ idx2 reads,
      Survey.find_tables surveyA store2 ⟨[]⟩ (some "x") (some ["t1", "t2"]) =
        Except.ok ((["t1", "t2"]).filter
          (fun t => (storeColsOf store2 t).contains "x"), ⟨idx2⟩, reads) ∧
      reads.Nodup ∧
      (∀ t ∈ reads, dictGet ([] : TablesIndex) t = none) ∧
      Survey.find_tables surveyA store2 ⟨idx2⟩ (some "x") (some ["t1", "t2"]) =
        Except.ok ((["t1", "t2"]).filter
          (fun t => (storeColsOf store2 t).contains "x"), ⟨idx2⟩, []) :=
  ⟨(fun _ _ h => nomatch h), by decide,
    C2_find_tables_cache surveyA store2 "x" ["t1", "t2"] []
      (fun _ _ h => nomatch h) (by decide)⟩

end SurveyManager
